import Mathlib

/-!
# Verification of the mgba-libretro ARM debugger core

Shallow embedding of `src/debugger/debugger.c` (FunKey-Project/mgba-libretro):
the argument tokenizer (`_DVParse`), the command table and dispatcher
(`_parse`), the command handlers, the breakpoint scan (`_checkBreakpoints`),
the REPL glue (`_commandLine`) and the run/pause state machine
(`ARMDebuggerRun`).

Machine integers are modelled as `Nat` holding the 32-bit pattern, with
explicit `% 2 ^ 32` wherever the C code performs wrapping `uint32_t`
arithmetic.  External collaborators (the CPU step `ARMRun`, the memory
load primitives, the line-input provider) are abstracted as parameters.
-/

namespace MgbaDebugger

/-- Modelled from the spec (the enum lives in `debugger.h`, which is not in
`src/`): debugger states `{Paused, Running, Exiting, Shutdown}` with
`Paused`, `Running` below `Exiting` so that the source's comparison
`state < DEBUGGER_EXITING` selects exactly the two active states. -/
inductive DebuggerState where
  | paused
  | running
  | exiting
  | shutdown
deriving DecidableEq, Repr

/-- Numeric value of the state enum, as used by `state < DEBUGGER_EXITING`. -/
def DebuggerState.toNat : DebuggerState → Nat
  | .paused => 0
  | .running => 1
  | .exiting => 2
  | .shutdown => 3

/-- Identity of the CPU's active memory interface: either the original
memory implementation or the debugger's watchpoint shim
(`&debugger->memoryShim.d`). -/
inductive MemIface where
  | original
  | shim
deriving DecidableEq, Repr

/-- The program-status register: the packed 32-bit value together with the
individually addressable bits printed by `_printPSR`; `t` is the mode flag
selecting the compact (Thumb) encoding. -/
structure PSR where
  packed : Nat
  n : Bool
  z : Bool
  c : Bool
  v : Bool
  i : Bool
  f : Bool
  t : Bool

/-- The CPU collaborator as seen by the debugger: the register file
(each entry the 32-bit pattern as a `Nat`), the status register and the
identity of the active memory interface. -/
structure ARMCore where
  gprs : Fin 16 → Nat
  cpsr : PSR
  memory : MemIface

/-- Modelled from the spec (`arm.h` not in `src/`): the fixed
register-file index of the program counter. -/
def ARM_PC : Fin 16 := 15

/-- Modelled from the spec (`arm.h` not in `src/`): the fixed
register-file index of the stack pointer. -/
def ARM_SP : Fin 16 := 13

/-- Modelled from the spec (`arm.h` not in `src/`): the fixed
register-file index of the link register. -/
def ARM_LR : Fin 16 := 14

/-- Modelled from the spec (`arm.h` not in `src/`): instruction length of
the wide (ARM) encoding. -/
def WORD_SIZE_ARM : Nat := 4

/-- Modelled from the spec (`arm.h` not in `src/`): instruction length of
the compact (Thumb) encoding. -/
def WORD_SIZE_THUMB : Nat := 2

/-- Modelled from the spec (`arm.h` not in `src/`): the execution mode
selected by the CPSR mode flag. -/
inductive ExecutionMode where
  | arm
  | thumb
deriving DecidableEq, Repr

/-- Modelled from the spec: `MODE_ARM` is the mode with the `t` flag
clear, `MODE_THUMB` the mode with it set (the source converts `cpsr.t`
directly to an `enum ExecutionMode`). -/
def modeOf (t : Bool) : ExecutionMode :=
  if t then .thumb else .arm

/-- The debugger controller (`struct ARMDebugger`): CPU, run state, the
breakpoint list, the shim's watchpoint list (`memoryShim.watchpoints`) and
the line-input history (newest entry first, stored without the trailing
newline). -/
structure ARMDebugger where
  cpu : ARMCore
  state : DebuggerState
  breakpoints : List Nat
  shimWatchpoints : List Nat
  history : List (List Char)

/-- The tag of one argument token (`enum DVType`). -/
inductive DVType where
  | ERROR_TYPE
  | INT_TYPE
  | CHAR_TYPE
deriving DecidableEq, Repr

/-- One argument token (`struct DebugVector`); the linked list is modelled
as a Lean list.  `intValue` holds the 32-bit pattern; an error node's
`intValue` is left uninitialized by the source and is 0 here. -/
structure DebugVector where
  type : DVType
  intValue : Nat
deriving DecidableEq, Repr

/-- Observable effects of the debugger core: text written to stdout, the
installation of the memory shim, one CPU step (`ARMRun`), and entry into
the REPL (`_commandLine`). -/
inductive Event where
  | out (s : String)
  | installShim
  | stepped
  | enteredRepl
deriving DecidableEq, Repr

/-- The external collaborators, abstracted: `run` is `ARMRun` together
with anything it may do to the debugger state asynchronously (signal
handler, watchpoint shim) — it may produce a new CPU and a new debugger
state but touches no other controller field; `load8`/`load16`/`load32`
are the memory read primitives of the active interface. -/
structure Externals where
  run : ARMDebugger → ARMCore × DebuggerState
  load8 : MemIface → Nat → Nat
  load16 : MemIface → Nat → Nat
  load32 : MemIface → Nat → Nat

/-- One `ARMRun` call as seen from the debugger loop. -/
def stepCPU (ext : Externals) (d : ARMDebugger) : ARMDebugger :=
  { d with cpu := (ext.run d).1, state := (ext.run d).2 }

/-! ## The argument tokenizer `_DVParse` -/

/-- The tokenizer's states (`enum _DVParseState`).  The source's
`PARSE_EXPECT_PREFIX` (entered after a leading `0`, awaiting `x`/`X`) is
named `expect0x` here. -/
inductive DVParseState where
  | error
  | root
  | expectRegister
  | expectRegister2
  | expectLR
  | expectPC
  | expectSP
  | expectDecimal
  | expectHex
  | expect0x
  | expectSuffix
deriving DecidableEq, Repr

/-- The decimal-digit cases of the tokenizer's `switch` statements: the
cases `'0'`..`'9'` compute `token - '0'`, everything else falls to the
`default` branch. -/
def digitCharVal (c : Char) : Option Nat :=
  if 48 <= c.toNat && c.toNat <= 57 then some (c.toNat - 48) else none

/-- The hex-digit cases of the `PARSE_EXPECT_HEX` switch: the cases
`'0'`..`'9'` compute `token - '0'`, the cases `'A'`..`'F'` compute
`token - 'A' + 10`, the cases `'a'`..`'f'` compute `token - 'a' + 10`,
everything else falls to the `default` branch. -/
def hexCharVal (c : Char) : Option Nat :=
  if 48 <= c.toNat && c.toNat <= 57 then some (c.toNat - 48)
  else if 65 <= c.toNat && c.toNat <= 70 then some (c.toNat - 65 + 10)
  else if 97 <= c.toNat && c.toNat <= 102 then some (c.toNat - 97 + 10)
  else none

/-- One iteration of the tokenizer's `switch (state)` on one character:
returns the next state and the new accumulator.  Numeric accumulation is
the source's unchecked `uint32_t` arithmetic, hence the `% 2 ^ 32`. -/
def dvStep (d : ARMDebugger) (state : DVParseState) (current : Nat) (token : Char) :
    DVParseState × Nat :=
  match state with
  | .root =>
    if token = 'r' then (.expectRegister, current)
    else if token = 'p' then (.expectPC, current)
    else if token = 's' then (.expectSP, current)
    else if token = 'l' then (.expectLR, current)
    else if token = '0' then (.expect0x, current)
    else if token = '$' then (.expectHex, 0)
    else
      match digitCharVal token with
      | some v => (.expectDecimal, v)
      | none => (.error, current)
  | .expectLR =>
    if token = 'r' then (.expectSuffix, d.cpu.gprs ARM_LR)
    else (.error, current)
  | .expectPC =>
    if token = 'c' then (.expectSuffix, d.cpu.gprs ARM_PC)
    else (.error, current)
  | .expectSP =>
    if token = 'p' then (.expectSuffix, d.cpu.gprs ARM_SP)
    else (.error, current)
  | .expectRegister =>
    if token = '1' then (.expectRegister2, current)
    else
      match digitCharVal token with
      | some v => (.expectSuffix, d.cpu.gprs ⟨v % 16, Nat.mod_lt v (by decide)⟩)
      | none => (.error, current)
  | .expectRegister2 =>
    match digitCharVal token with
    | some v =>
      if v ≤ 5 then (.expectSuffix, d.cpu.gprs ⟨(v + 10) % 16, Nat.mod_lt (v + 10) (by decide)⟩)
      else (.error, current)
    | none => (.error, current)
  | .expectDecimal =>
    match digitCharVal token with
    | some v => (.expectDecimal, (current * 10 + v) % 2 ^ 32)
    | none => (.error, current)
  | .expectHex =>
    match hexCharVal token with
    | some v => (.expectHex, (current * 16 + v) % 2 ^ 32)
    | none => (.error, current)
  | .expect0x =>
    if token = 'X' ∨ token = 'x' then (.expectHex, 0)
    else (.error, current)
  | .expectSuffix => (.error, current)
  | .error => (.error, current)

/-- The body of `_DVParse` fused with its tail recursion over separating
spaces: runs the character loop (`while length > 0 && string[0] &&
string[0] != ' ' && state != PARSE_ERROR`), emits the token at loop exit
(`ERROR_TYPE` if the state machine failed, otherwise `INT_TYPE` carrying
the accumulator), and on a separator recurses on the remainder exactly
when that remainder is nonempty (the recursive call's `length < 1`
guard). -/
def dvRun (d : ARMDebugger) : DVParseState → Nat → List Char → List DebugVector
  | state, current, [] =>
    if state = .error then [⟨.ERROR_TYPE, 0⟩] else [⟨.INT_TYPE, current⟩]
  | state, current, token :: rest =>
    if state = .error then [⟨.ERROR_TYPE, 0⟩]
    else if token = Char.ofNat 0 then [⟨.INT_TYPE, current⟩]
    else if token = ' ' then
      ⟨.INT_TYPE, current⟩ :: (if rest.length < 1 then [] else dvRun d .root 0 rest)
    else
      let sc := dvStep d state current token
      dvRun d sc.1 sc.2 rest

/-- `_DVParse`: tokenize the remainder of a command line.  The null return
of the source (empty input) is the empty list. -/
def _DVParse (d : ARMDebugger) (string : List Char) : List DebugVector :=
  if string.length < 1 then [] else dvRun d .root 0 string

/-! ## Output formatting -/

/-- One hex digit, uppercase, as produced by `printf` `%X`. -/
def hexDigitChar (n : Nat) : Char :=
  if n < 10 then Char.ofNat (48 + n) else Char.ofNat (55 + n)

/-- Zero-padded `w`-digit uppercase hex (the `%08X`, `%04X`, `%02X`
conversions; the value is a `w * 4`-bit pattern). -/
def hexPad (w : Nat) (n : Nat) : String :=
  String.mk ((List.range w).reverse.map fun k => hexDigitChar (n / 16 ^ k % 16))

/-- `_printPSR`: the packed value and the bracketed flag summary. -/
def _printPSR (psr : PSR) : String :=
  hexPad 8 psr.packed ++ " [" ++
    String.mk [if psr.n then 'N' else '-',
               if psr.z then 'Z' else '-',
               if psr.c then 'C' else '-',
               if psr.v then 'V' else '-',
               if psr.i then 'I' else '-',
               if psr.f then 'F' else '-',
               if psr.t then 'T' else '-'] ++ "]\n"

/-! ## Command handlers -/

/-- `ERROR_MISSING_ARGS`. -/
def ERROR_MISSING_ARGS : String := "Arguments missing"

/-- The argument check shared by the address-taking handlers
(`!dv || dv->type != INT_TYPE`): the first token's integer value, or
`none` when the list is empty or its head is not an `INT_TYPE` token. -/
def dvHeadInt? : List DebugVector → Option Nat
  | [] => none
  | v :: _ => if v.type = .INT_TYPE then some v.intValue else none

/-- `_setBreakpoint`: head-insert a breakpoint record, or report
missing arguments. -/
def _setBreakpoint (d : ARMDebugger) (dv : List DebugVector) : ARMDebugger × List Event :=
  match dvHeadInt? dv with
  | none => (d, [.out (ERROR_MISSING_ARGS ++ "\n")])
  | some address => ({ d with breakpoints := address :: d.breakpoints }, [])

/-- Modelled from the spec (`ARMDebuggerInstallMemoryShim` lives in
`memory-debugger.c`, which is not in `src/`): "installs the
memory-interception layer by swapping the CPU's active memory interface
to it". -/
def ARMDebuggerInstallMemoryShim (d : ARMDebugger) : ARMDebugger :=
  { d with cpu := { d.cpu with memory := .shim } }

/-- `_setWatchpoint`: install the shim when the CPU's memory interface is
not already the shim, then head-insert a watchpoint record into the
shim's list; or report missing arguments. -/
def _setWatchpoint (d : ARMDebugger) (dv : List DebugVector) : ARMDebugger × List Event :=
  match dvHeadInt? dv with
  | none => (d, [.out (ERROR_MISSING_ARGS ++ "\n")])
  | some address =>
    let p : ARMDebugger × List Event :=
      if d.cpu.memory ≠ .shim then (ARMDebuggerInstallMemoryShim d, [.installShim])
      else (d, [])
    ({ p.1 with shimWatchpoints := address :: p.1.shimWatchpoints }, p.2)

/-- `_continue`: resume free running. -/
def _continue (d : ARMDebugger) : ARMDebugger × List Event :=
  ({ d with state := .running }, [])

/-- `_quit`: terminal shutdown. -/
def _quit (d : ARMDebugger) : ARMDebugger × List Event :=
  ({ d with state := .shutdown }, [])

/-- `_printLine`: dump the instruction at `address` (no disassembler,
raw hex of natural width for the mode). -/
def _printLine (ext : Externals) (d : ARMDebugger) (address : Nat) (mode : ExecutionMode) :
    Event :=
  match mode with
  | .arm => .out (hexPad 8 (ext.load32 d.cpu.memory address) ++ "\n")
  | .thumb => .out (hexPad 4 (ext.load16 d.cpu.memory address) ++ "\n")

/-- `_printStatus`: four rows of four registers, the PSR, and the
instruction at `PC - instructionLength` (32-bit subtraction). -/
def _printStatus (ext : Externals) (d : ARMDebugger) : List Event :=
  [.out (hexPad 8 (d.cpu.gprs 0) ++ " " ++ hexPad 8 (d.cpu.gprs 1) ++ " " ++
         hexPad 8 (d.cpu.gprs 2) ++ " " ++ hexPad 8 (d.cpu.gprs 3) ++ "\n"),
   .out (hexPad 8 (d.cpu.gprs 4) ++ " " ++ hexPad 8 (d.cpu.gprs 5) ++ " " ++
         hexPad 8 (d.cpu.gprs 6) ++ " " ++ hexPad 8 (d.cpu.gprs 7) ++ "\n"),
   .out (hexPad 8 (d.cpu.gprs 8) ++ " " ++ hexPad 8 (d.cpu.gprs 9) ++ " " ++
         hexPad 8 (d.cpu.gprs 10) ++ " " ++ hexPad 8 (d.cpu.gprs 11) ++ "\n"),
   .out (hexPad 8 (d.cpu.gprs 12) ++ " " ++ hexPad 8 (d.cpu.gprs 13) ++ " " ++
         hexPad 8 (d.cpu.gprs 14) ++ " " ++ hexPad 8 (d.cpu.gprs 15) ++ "\n"),
   .out (_printPSR d.cpu.cpsr),
   (let mode := modeOf d.cpu.cpsr.t
    let instructionLength := if mode = .arm then WORD_SIZE_ARM else WORD_SIZE_THUMB
    _printLine ext d ((d.cpu.gprs ARM_PC + (2 ^ 32 - instructionLength)) % 2 ^ 32) mode)]

/-- `_next`: one CPU step, then reprint status. -/
def _next (ext : Externals) (d : ARMDebugger) : ARMDebugger × List Event :=
  let d1 := stepCPU ext d
  (d1, Event.stepped :: _printStatus ext d1)

/-- `_print`: echo every token's value in decimal (`%u` of the 32-bit
pattern), space-separated, then a newline. -/
def _print (d : ARMDebugger) (dv : List DebugVector) : ARMDebugger × List Event :=
  (d, (dv.map fun v => Event.out (" " ++ toString v.intValue)) ++ [.out "\n"])

/-- `_printHex`: echo every token's value as ` 0x%08X`, then a newline. -/
def _printHex (d : ARMDebugger) (dv : List DebugVector) : ARMDebugger × List Event :=
  (d, (dv.map fun v => Event.out (" 0x" ++ hexPad 8 v.intValue)) ++ [.out "\n"])

/-- `_readByte`: load and print one byte, or report missing arguments. -/
def _readByte (ext : Externals) (d : ARMDebugger) (dv : List DebugVector) :
    ARMDebugger × List Event :=
  match dvHeadInt? dv with
  | none => (d, [.out (ERROR_MISSING_ARGS ++ "\n")])
  | some address => (d, [.out (" 0x" ++ hexPad 2 (ext.load8 d.cpu.memory address) ++ "\n")])

/-- `_readHalfword`: load and print one halfword, or report missing
arguments. -/
def _readHalfword (ext : Externals) (d : ARMDebugger) (dv : List DebugVector) :
    ARMDebugger × List Event :=
  match dvHeadInt? dv with
  | none => (d, [.out (ERROR_MISSING_ARGS ++ "\n")])
  | some address => (d, [.out (" 0x" ++ hexPad 4 (ext.load16 d.cpu.memory address) ++ "\n")])

/-- `_readWord`: load and print one word, or report missing arguments. -/
def _readWord (ext : Externals) (d : ARMDebugger) (dv : List DebugVector) :
    ARMDebugger × List Event :=
  match dvHeadInt? dv with
  | none => (d, [.out (ERROR_MISSING_ARGS ++ "\n")])
  | some address => (d, [.out (" 0x" ++ hexPad 8 (ext.load32 d.cpu.memory address) ++ "\n")])

/-- `_breakInto`: raises `SIGTRAP` against the host process; no
debugger-visible state change inside this core. -/
def _breakInto (d : ARMDebugger) : ARMDebugger × List Event :=
  (d, [])

/-- The closed enumeration of command handlers appearing in
`_debuggerCommands`. -/
inductive DebuggerCommand where
  | setBreakpointCmd
  | continueCmd
  | printStatusCmd
  | nextCmd
  | printCmd
  | printHexCmd
  | quitCmd
  | readByteCmd
  | readHalfwordCmd
  | readWordCmd
  | setWatchpointCmd
  | breakIntoCmd
deriving DecidableEq, Repr

/-- The command table `_debuggerCommands`, in declared order, every alias
a distinct entry. -/
def _debuggerCommands : List (String × DebuggerCommand) :=
  [("b", .setBreakpointCmd),
   ("break", .setBreakpointCmd),
   ("c", .continueCmd),
   ("continue", .continueCmd),
   ("i", .printStatusCmd),
   ("info", .printStatusCmd),
   ("n", .nextCmd),
   ("next", .nextCmd),
   ("p", .printCmd),
   ("p/x", .printHexCmd),
   ("print", .printCmd),
   ("print/x", .printHexCmd),
   ("q", .quitCmd),
   ("quit", .quitCmd),
   ("rb", .readByteCmd),
   ("rh", .readHalfwordCmd),
   ("rw", .readWordCmd),
   ("status", .printStatusCmd),
   ("w", .setWatchpointCmd),
   ("watch", .setWatchpointCmd),
   ("x", .breakIntoCmd)]

/-- Dispatch one command id to its handler. -/
def execCommand (ext : Externals) (c : DebuggerCommand) (d : ARMDebugger)
    (dv : List DebugVector) : ARMDebugger × List Event :=
  match c with
  | .setBreakpointCmd => _setBreakpoint d dv
  | .continueCmd => _continue d
  | .printStatusCmd => (d, _printStatus ext d)
  | .nextCmd => _next ext d
  | .printCmd => _print d dv
  | .printHexCmd => _printHex d dv
  | .quitCmd => _quit d
  | .readByteCmd => _readByte ext d dv
  | .readHalfwordCmd => _readHalfword ext d dv
  | .readWordCmd => _readWord ext d dv
  | .setWatchpointCmd => _setWatchpoint d dv
  | .breakIntoCmd => _breakInto d

/-! ## The dispatcher `_parse` -/

/-- ASCII lower-casing as performed by `strncasecmp`. -/
def asciiLower (c : Char) : Char :=
  if 'A' ≤ c ∧ c ≤ 'Z' then Char.ofNat (c.toNat + 32) else c

/-- Case-insensitive equality of two character lists (the
`strncasecmp(name, line, cmdLength) == 0` test, with
`strlen(name) == cmdLength` already established). -/
def strncaseEq (a b : List Char) : Bool :=
  a.map asciiLower = b.map asciiLower

/-- The lookup scan of `_parse`: skip entries whose name length differs
from the command token's, take the first case-insensitive match. -/
def lookupCommand : List (String × DebuggerCommand) → List Char → Option DebuggerCommand
  | [], _ => none
  | (name, c) :: rest, cmd =>
    if name.length = cmd.length ∧ strncaseEq name.data cmd then some c
    else lookupCommand rest cmd

/-- The line split of `_parse`: everything before the first space is the
command token; the remainder after that space is tokenized by `_DVParse`.
With no space the whole line is the command and the argument list is the
source's null. -/
def splitLine (d : ARMDebugger) (line : List Char) : List Char × List DebugVector :=
  match line.findIdx? (fun c => c = ' ') with
  | some i => (line.take i, _DVParse d (line.drop (i + 1)))
  | none => (line, [])

/-- The `dv && dv->type == ERROR_TYPE` test: is the head of the argument
list an error token? -/
def dvHeadIsError : List DebugVector → Bool
  | [] => false
  | v :: _ => v.type = .ERROR_TYPE

/-- `_parse`: split the line, report `Parse error` and skip dispatch when
the argument list's head is an error token, otherwise look the command up
and run its handler.  The `Bool` is the source's return value: `true`
exactly when a handler ran. -/
def _parse (ext : Externals) (d : ARMDebugger) (line : List Char) :
    (ARMDebugger × List Event) × Bool :=
  let p := splitLine d line
  if dvHeadIsError p.2 then ((d, [.out "Parse error\n"]), false)
  else
    match lookupCommand _debuggerCommands p.1 with
    | some c => (execCommand ext c d p.2, true)
    | none => ((d, [.out "Command not found\n"]), false)

/-! ## The REPL `_commandLine`

Lines produced by the line-input collaborator are modelled without their
trailing newline, so the source's `line[0] == '\n'` test is `l = []`, the
`count - 1` length is the list's length, and the `strlen(ev.str) - 1`
length used when replaying a history entry is likewise the stored list's
length.  `none` is `el_gets` returning null (end of stream). -/

/-- One iteration of the `_commandLine` loop body: end of stream flips the
state to Exiting; a bare newline replays the most recent history entry if
one exists and is otherwise a no-op; any other line is parsed and, when a
handler ran, appended to history. -/
def replStep (ext : Externals) (d : ARMDebugger) (line : Option (List Char)) :
    ARMDebugger × List Event :=
  match line with
  | none => ({ d with state := .exiting }, [])
  | some l =>
    if l = [] then
      match d.history with
      | h :: _ => (_parse ext d h).1
      | [] => (d, [])
    else
      let r := _parse ext d l
      if r.2 then ({ r.1.1 with history := l :: r.1.1.history }, r.1.2)
      else r.1

/-- The `while (debugger->state == DEBUGGER_PAUSED)` loop of
`_commandLine`, reading from the input stream; returns the final
debugger, the emitted events and the unconsumed inputs. -/
def commandLineLoop (ext : Externals) :
    List (Option (List Char)) → ARMDebugger →
      ARMDebugger × List Event × List (Option (List Char))
  | [], d => (d, [], [])
  | input :: rest, d =>
    if d.state = .paused then
      let r := replStep ext d input
      let r2 := commandLineLoop ext rest r.1
      (r2.1, r.2 ++ r2.2.1, r2.2.2)
    else (d, [], input :: rest)

/-- `_commandLine`: print the status once, then run the prompt loop. -/
def _commandLine (ext : Externals) (inputs : List (Option (List Char)))
    (d : ARMDebugger) : ARMDebugger × List Event × List (Option (List Char)) :=
  let r := commandLineLoop ext inputs d
  (r.1, _printStatus ext d ++ r.2.1, r.2.2)

/-! ## The run loop `ARMDebuggerRun` -/

/-- The breakpoint scan condition: does some record, scanned in list
order, satisfy `breakpoint->address + instructionLength ==
debugger->cpu->gprs[ARM_PC]` (32-bit addition)?  The loop breaks at the
first match. -/
def breakpointHit (pc len : Nat) : List Nat → Bool
  | [] => false
  | b :: rest => if (b + len) % 2 ^ 32 = pc then true else breakpointHit pc len rest

/-- `_checkBreakpoints`: select the instruction length from the CPU mode
flag, scan the breakpoint list, and on the first hit flip the state to
Paused and print the notice. -/
def _checkBreakpoints (d : ARMDebugger) : ARMDebugger × List Event :=
  let mode := modeOf d.cpu.cpsr.t
  let instructionLength := if mode = .arm then WORD_SIZE_ARM else WORD_SIZE_THUMB
  if breakpointHit (d.cpu.gprs ARM_PC) instructionLength d.breakpoints then
    ({ d with state := .paused }, [.out "Hit breakpoint\n"])
  else (d, [])

/-- The fast inner loop (`while (state == DEBUGGER_RUNNING) ARMRun(cpu)`),
taken when the breakpoint list is empty; fuel bounds the number of
steps. -/
def innerNoBp (ext : Externals) : Nat → ARMDebugger → ARMDebugger × List Event
  | 0, d => (d, [])
  | fuel + 1, d =>
    if d.state = .running then
      let d1 := stepCPU ext d
      let r := innerNoBp ext fuel d1
      (r.1, Event.stepped :: r.2)
    else (d, [])

/-- The checking inner loop, taken when the breakpoint list is nonempty:
after every CPU step, `_checkBreakpoints` runs. -/
def innerBp (ext : Externals) : Nat → ARMDebugger → ARMDebugger × List Event
  | 0, d => (d, [])
  | fuel + 1, d =>
    if d.state = .running then
      let d1 := stepCPU ext d
      let c := _checkBreakpoints d1
      let r := innerBp ext fuel c.1
      (r.1, Event.stepped :: (c.2 ++ r.2))
    else (d, [])

/-- The outer `while (debugger->state < DEBUGGER_EXITING)` loop of
`ARMDebuggerRun`: run the appropriate inner loop, then switch on the
state that ended it — Running continues (defensive no-op), Paused enters
the REPL, Exiting and Shutdown return. -/
def runOuter (ext : Externals) :
    Nat → List (Option (List Char)) → ARMDebugger → ARMDebugger × List Event
  | 0, _, d => (d, [])
  | fuel + 1, inputs, d =>
    if d.state.toNat < DebuggerState.exiting.toNat then
      let s := if d.breakpoints = [] then innerNoBp ext fuel d else innerBp ext fuel d
      match s.1.state with
      | .running =>
        let r := runOuter ext fuel inputs s.1
        (r.1, s.2 ++ r.2)
      | .paused =>
        let c := _commandLine ext inputs s.1
        let r := runOuter ext fuel c.2.2 c.1
        (r.1, s.2 ++ Event.enteredRepl :: c.2.1 ++ r.2)
      | .exiting => (s.1, s.2)
      | .shutdown => (s.1, s.2)
    else (d, [])

/-- `ARMDebuggerRun`: the run entry point.  Exiting is converted to
Running before the loop; Shutdown is left alone and fails the loop guard
immediately. -/
def ARMDebuggerRun (ext : Externals) (fuel : Nat) (inputs : List (Option (List Char)))
    (d : ARMDebugger) : ARMDebugger × List Event :=
  runOuter ext fuel inputs
    (if d.state = .exiting then { d with state := .running } else d)

/-- `ARMDebuggerEnter`: the asynchronous pause request. -/
def ARMDebuggerEnter (d : ARMDebugger) : ARMDebugger :=
  { d with state := .paused }

/-! ## Numeric value of literals -/

/-- Mathematical value of a decimal digit string. -/
def decValue (s : List Char) : Nat :=
  s.foldl (fun a c => a * 10 + (digitCharVal c).getD 0) 0

/-- Mathematical value of a hex digit string (letter case handled by
`hexCharVal`). -/
def hexValue (s : List Char) : Nat :=
  s.foldl (fun a c => a * 16 + (hexCharVal c).getD 0) 0

/-! ## Concrete sample states for witnesses -/

/-- A sample CPU whose register `i` holds `100 + i`, ARM mode, original
memory interface. -/
def sampleCore : ARMCore :=
  { gprs := fun i => 100 + i.val,
    cpsr := ⟨0, false, false, false, false, false, false, false⟩,
    memory := .original }

/-- A sample paused debugger with empty lists. -/
def sampleDebugger : ARMDebugger :=
  { cpu := sampleCore, state := .paused, breakpoints := [],
    shimWatchpoints := [], history := [] }

/-- Trivial externals: the CPU step changes nothing and every load
returns 0. -/
def sampleExt : Externals :=
  { run := fun d => (d.cpu, d.state),
    load8 := fun _ _ => 0, load16 := fun _ _ => 0, load32 := fun _ _ => 0 }

/-! ## Helper lemmas about the tokenizer -/

/-- Once the state machine is in the error state, the rest of the input
is ignored and a single error token results. -/
theorem dvRun_error (d : ARMDebugger) (cur : Nat) (s : List Char) :
    dvRun d .error cur s = [⟨.ERROR_TYPE, 0⟩] := by
  cases s <;> rfl

/-- A character recognized as a decimal digit is neither the terminator
nor the separator. -/
theorem digitCharVal_ne {c : Char} {v : Nat} (h : digitCharVal c = some v) :
    c ≠ ' ' ∧ c ≠ Char.ofNat 0 := by
  constructor <;> rintro rfl <;> exact Option.noConfusion h

/-- A character recognized as a hex digit is neither the terminator nor
the separator. -/
theorem hexCharVal_ne {c : Char} {v : Nat} (h : hexCharVal c = some v) :
    c ≠ ' ' ∧ c ≠ Char.ofNat 0 := by
  constructor <;> rintro rfl <;> exact Option.noConfusion h

/-- Folding `x * B + f c` respects congruence modulo `M`. -/
theorem foldl_scale_modEq {M B : Nat} (f : Char → Nat) (s : List Char) :
    ∀ {a b : Nat}, a ≡ b [MOD M] →
      List.foldl (fun x c => x * B + f c) a s ≡
        List.foldl (fun x c => x * B + f c) b s [MOD M] := by
  induction s with
  | nil => exact fun h => h
  | cons c t ih => exact fun h => ih ((h.mul_right B).add_right (f c))

/-- Running the tokenizer from the decimal state over a string of decimal
digits accumulates the value with 32-bit wraparound. -/
theorem dvRun_decimal (d : ARMDebugger) (s : List Char) :
    ∀ cur : Nat, (∀ c ∈ s, (digitCharVal c).isSome) → cur < 2 ^ 32 →
      dvRun d .expectDecimal cur s =
        [⟨.INT_TYPE, (s.foldl (fun a c => a * 10 + (digitCharVal c).getD 0) cur) % 2 ^ 32⟩] := by
  induction s with
  | nil =>
    intro cur _ hcur
    simp [dvRun]
    omega
  | cons c t ih =>
    intro cur hall hcur
    obtain ⟨v, hv⟩ := Option.isSome_iff_exists.mp (hall c (List.mem_cons_self c t))
    obtain ⟨hs, h0⟩ := digitCharVal_ne hv
    have hstep : dvRun d .expectDecimal cur (c :: t) =
        dvRun d .expectDecimal ((cur * 10 + v) % 2 ^ 32) t := by
      simp [dvRun, h0, hs, dvStep, hv]
    rw [hstep, ih _ (fun c2 hc2 => hall c2 (List.mem_cons_of_mem c hc2))
        (Nat.mod_lt _ (by norm_num))]
    have hcong := foldl_scale_modEq (M := 2 ^ 32) (B := 10)
      (fun c => (digitCharVal c).getD 0) t
      (Nat.mod_modEq (cur * 10 + v) (2 ^ 32))
    simp only [List.foldl_cons, hv, Option.getD_some]
    exact congrArg (fun x => [DebugVector.mk .INT_TYPE x]) hcong

/-- Running the tokenizer from the hex state over a string of hex digits
accumulates the value with 32-bit wraparound. -/
theorem dvRun_hex (d : ARMDebugger) (s : List Char) :
    ∀ cur : Nat, (∀ c ∈ s, (hexCharVal c).isSome) → cur < 2 ^ 32 →
      dvRun d .expectHex cur s =
        [⟨.INT_TYPE, (s.foldl (fun a c => a * 16 + (hexCharVal c).getD 0) cur) % 2 ^ 32⟩] := by
  induction s with
  | nil =>
    intro cur _ hcur
    simp [dvRun]
    omega
  | cons c t ih =>
    intro cur hall hcur
    obtain ⟨v, hv⟩ := Option.isSome_iff_exists.mp (hall c (List.mem_cons_self c t))
    obtain ⟨hs, h0⟩ := hexCharVal_ne hv
    have hstep : dvRun d .expectHex cur (c :: t) =
        dvRun d .expectHex ((cur * 16 + v) % 2 ^ 32) t := by
      simp [dvRun, h0, hs, dvStep, hv]
    rw [hstep, ih _ (fun c2 hc2 => hall c2 (List.mem_cons_of_mem c hc2))
        (Nat.mod_lt _ (by norm_num))]
    have hcong := foldl_scale_modEq (M := 2 ^ 32) (B := 16)
      (fun c => (hexCharVal c).getD 0) t
      (Nat.mod_modEq (cur * 16 + v) (2 ^ 32))
    simp only [List.foldl_cons, hv, Option.getD_some]
    exact congrArg (fun x => [DebugVector.mk .INT_TYPE x]) hcong

/-- A non-hex, non-separator character anywhere after the hex digits
drives the machine into the error state, which swallows the rest. -/
theorem dvRun_hex_reject (d : ARMDebugger) {c2 : Char} (h2 : hexCharVal c2 = none)
    (hs2 : c2 ≠ ' ') (h02 : c2 ≠ Char.ofNat 0) (t : List Char) (s : List Char) :
    ∀ cur : Nat, (∀ c ∈ s, (hexCharVal c).isSome) →
      dvRun d .expectHex cur (s ++ c2 :: t) = [⟨.ERROR_TYPE, 0⟩] := by
  induction s with
  | nil =>
    intro cur _
    have hstep : dvRun d .expectHex cur (c2 :: t) = dvRun d .error cur t := by
      simp [dvRun, h02, hs2, dvStep, h2]
    rw [List.nil_append, hstep, dvRun_error]
  | cons c s ih =>
    intro cur hall
    obtain ⟨v, hv⟩ := Option.isSome_iff_exists.mp (hall c (List.mem_cons_self c s))
    obtain ⟨hsp, h0⟩ := hexCharVal_ne hv
    have hstep : dvRun d .expectHex cur ((c :: s) ++ c2 :: t) =
        dvRun d .expectHex ((cur * 16 + v) % 2 ^ 32) (s ++ c2 :: t) := by
      simp [dvRun, h0, hsp, dvStep, hv]
    rw [hstep, ih _ (fun c3 hc3 => hall c3 (List.mem_cons_of_mem c hc3))]

/-- A leading digit `1`..`9` moves the root state into the decimal state
carrying the digit's value. -/
theorem dvStep_root_digit (d : ARMDebugger) (cur : Nat) {c : Char} {v : Nat}
    (h : digitCharVal c = some v) (hv : v ≠ 0) :
    dvStep d .root cur c = (.expectDecimal, v) := by
  have hr : c ≠ 'r' := by rintro rfl; exact Option.noConfusion h
  have hp : c ≠ 'p' := by rintro rfl; exact Option.noConfusion h
  have hsc : c ≠ 's' := by rintro rfl; exact Option.noConfusion h
  have hl : c ≠ 'l' := by rintro rfl; exact Option.noConfusion h
  have h0 : c ≠ '0' := by
    rintro rfl
    exact hv (Option.some_injective _ h).symm
  have hd : c ≠ '$' := by rintro rfl; exact Option.noConfusion h
  simp [dvStep, hr, hp, hsc, hl, h0, hd, h]

end MgbaDebugger

namespace MgbaDebugger

/-! ## Claim theorems -/

/-- C3: for every register token `r0`..`r15`, `pc`, `sp`, `lr` given as a
complete argument token, the parser yields an Integer token equal to that
register's current value in the CPU's register file. -/
theorem c3_register_tokens_parse_to_values (d : ARMDebugger) :
    _DVParse d ['r', '0'] = [⟨.INT_TYPE, d.cpu.gprs 0⟩]
    ∧ _DVParse d ['r', '1', '0'] = [⟨.INT_TYPE, d.cpu.gprs 10⟩]
    ∧ _DVParse d ['r', '1', '1'] = [⟨.INT_TYPE, d.cpu.gprs 11⟩]
    ∧ _DVParse d ['r', '1', '2'] = [⟨.INT_TYPE, d.cpu.gprs 12⟩]
    ∧ _DVParse d ['r', '1', '3'] = [⟨.INT_TYPE, d.cpu.gprs 13⟩]
    ∧ _DVParse d ['r', '1', '4'] = [⟨.INT_TYPE, d.cpu.gprs 14⟩]
    ∧ _DVParse d ['r', '1', '5'] = [⟨.INT_TYPE, d.cpu.gprs 15⟩]
    ∧ _DVParse d ['r', '2'] = [⟨.INT_TYPE, d.cpu.gprs 2⟩]
    ∧ _DVParse d ['r', '3'] = [⟨.INT_TYPE, d.cpu.gprs 3⟩]
    ∧ _DVParse d ['r', '4'] = [⟨.INT_TYPE, d.cpu.gprs 4⟩]
    ∧ _DVParse d ['r', '5'] = [⟨.INT_TYPE, d.cpu.gprs 5⟩]
    ∧ _DVParse d ['r', '6'] = [⟨.INT_TYPE, d.cpu.gprs 6⟩]
    ∧ _DVParse d ['r', '7'] = [⟨.INT_TYPE, d.cpu.gprs 7⟩]
    ∧ _DVParse d ['r', '8'] = [⟨.INT_TYPE, d.cpu.gprs 8⟩]
    ∧ _DVParse d ['r', '9'] = [⟨.INT_TYPE, d.cpu.gprs 9⟩]
    ∧ _DVParse d ['p', 'c'] = [⟨.INT_TYPE, d.cpu.gprs 15⟩]
    ∧ _DVParse d ['s', 'p'] = [⟨.INT_TYPE, d.cpu.gprs 13⟩]
    ∧ _DVParse d ['l', 'r'] = [⟨.INT_TYPE, d.cpu.gprs 14⟩] :=
  ⟨rfl, rfl, rfl, rfl, rfl, rfl, rfl, rfl, rfl, rfl, rfl, rfl, rfl, rfl, rfl,
   rfl, rfl, rfl⟩

/-- C10: an argument string that ends in the middle of a token is accepted
as an Integer token whose value is the accumulator at loop exit — the
truncated examples `0`, `0x`, `$`, `r`, `r1`, `l`, `p`, `s` all parse to
Integer 0 — and, in any non-error state, exhausting the input always
yields an Integer token carrying the accumulator, never an error. -/
theorem c10_truncated_tokens_accepted (d : ARMDebugger) (st : DVParseState)
    (cur : Nat) (h : st ≠ .error) :
    dvRun d st cur [] = [⟨.INT_TYPE, cur⟩]
    ∧ _DVParse d ['0'] = [⟨.INT_TYPE, 0⟩]
    ∧ _DVParse d ['0', 'x'] = [⟨.INT_TYPE, 0⟩]
    ∧ _DVParse d ['$'] = [⟨.INT_TYPE, 0⟩]
    ∧ _DVParse d ['r'] = [⟨.INT_TYPE, 0⟩]
    ∧ _DVParse d ['r', '1'] = [⟨.INT_TYPE, 0⟩]
    ∧ _DVParse d ['l'] = [⟨.INT_TYPE, 0⟩]
    ∧ _DVParse d ['p'] = [⟨.INT_TYPE, 0⟩]
    ∧ _DVParse d ['s'] = [⟨.INT_TYPE, 0⟩] := by
  refine ⟨?_, rfl, rfl, rfl, rfl, rfl, rfl, rfl, rfl⟩
  simp [dvRun, h]

/-- Witness for C10 at a concrete truncated-token state. -/
theorem c10_witness :
    dvRun sampleDebugger .expect0x 0 [] = [⟨.INT_TYPE, 0⟩] :=
  (c10_truncated_tokens_accepted sampleDebugger .expect0x 0 (by decide)).1

/-- C5: for `setBreakpoint` and `setWatchpoint`, a missing or non-Integer
first argument token reports `Arguments missing` and performs no
mutation — the handler returns the controller unchanged, so the
breakpoint list, the watchpoint list and the CPU's memory interface are
all untouched. -/
theorem c5_missing_args_no_mutation (d : ARMDebugger) (dv : List DebugVector)
    (h : ∀ v, dv.head? = some v → v.type ≠ DVType.INT_TYPE) :
    _setBreakpoint d dv = (d, [.out (ERROR_MISSING_ARGS ++ "\n")])
    ∧ _setWatchpoint d dv = (d, [.out (ERROR_MISSING_ARGS ++ "\n")]) := by
  have hd : dvHeadInt? dv = none := by
    cases dv with
    | nil => rfl
    | cons v t => simp [dvHeadInt?, h v rfl]
  exact ⟨by simp [_setBreakpoint, hd], by simp [_setWatchpoint, hd]⟩

/-- Witness for C5 at an empty and at a non-Integer argument list. -/
theorem c5_witness :
    _setBreakpoint sampleDebugger [] =
      (sampleDebugger, [.out (ERROR_MISSING_ARGS ++ "\n")])
    ∧ _setWatchpoint sampleDebugger [⟨.ERROR_TYPE, 0⟩] =
      (sampleDebugger, [.out (ERROR_MISSING_ARGS ++ "\n")]) :=
  ⟨(c5_missing_args_no_mutation sampleDebugger []
      (fun v hv => Option.noConfusion hv)).1,
   (c5_missing_args_no_mutation sampleDebugger [⟨.ERROR_TYPE, 0⟩]
      (fun v hv => by cases Option.some_injective _ hv; decide)).2⟩

/-- C9: a successful `setWatchpoint` leaves the CPU's memory interface
equal to the shim, head-inserts the address into the shim's watchpoint
list, and performs the installation swap exactly when the shim was not
already the CPU's memory interface; nothing else in the controller
changes. -/
theorem c9_watchpoint_shim_install (d : ARMDebugger) (dv : List DebugVector)
    (addr : Nat) (h : dv.head? = some ⟨.INT_TYPE, addr⟩) :
    (_setWatchpoint d dv).1.cpu.memory = MemIface.shim
    ∧ (_setWatchpoint d dv).1.shimWatchpoints = addr :: d.shimWatchpoints
    ∧ (Event.installShim ∈ (_setWatchpoint d dv).2 ↔ d.cpu.memory ≠ MemIface.shim)
    ∧ (_setWatchpoint d dv).1.breakpoints = d.breakpoints
    ∧ (_setWatchpoint d dv).1.state = d.state
    ∧ (_setWatchpoint d dv).1.history = d.history
    ∧ (_setWatchpoint d dv).1.cpu.gprs = d.cpu.gprs := by
  have hd : dvHeadInt? dv = some addr := by
    cases dv with
    | nil => exact Option.noConfusion h
    | cons v t =>
      cases Option.some_injective _ h
      simp [dvHeadInt?]
  by_cases hm : d.cpu.memory = MemIface.shim <;>
    simp [_setWatchpoint, hd, hm, ARMDebuggerInstallMemoryShim]

/-- Witness for C9: first registration on the sample debugger installs
the shim. -/
theorem c9_witness :
    (_setWatchpoint sampleDebugger [⟨.INT_TYPE, 4096⟩]).1.cpu.memory = MemIface.shim
    ∧ (_setWatchpoint sampleDebugger [⟨.INT_TYPE, 4096⟩]).1.shimWatchpoints = [4096]
    ∧ (Event.installShim ∈ (_setWatchpoint sampleDebugger [⟨.INT_TYPE, 4096⟩]).2 ↔
        sampleDebugger.cpu.memory ≠ MemIface.shim) :=
  ⟨(c9_watchpoint_shim_install sampleDebugger [⟨.INT_TYPE, 4096⟩] 4096 rfl).1,
   (c9_watchpoint_shim_install sampleDebugger [⟨.INT_TYPE, 4096⟩] 4096 rfl).2.1,
   (c9_watchpoint_shim_install sampleDebugger [⟨.INT_TYPE, 4096⟩] 4096 rfl).2.2.1⟩

end MgbaDebugger


namespace MgbaDebugger

/-- A Thumb-mode debugger, free-running, whose single breakpoint at 113
matches the program counter 115 (pipeline offset 2). -/
def thumbRunningDebugger : ARMDebugger :=
  { cpu := { gprs := fun i => 100 + i.val,
             cpsr := ⟨32, false, false, false, false, false, false, true⟩,
             memory := .original },
    state := .running, breakpoints := [113], shimWatchpoints := [], history := [] }

/-- The scan condition holds exactly when some record matches the
pipeline-adjusted program counter. -/
theorem breakpointHit_iff (pc len : Nat) (l : List Nat) :
    breakpointHit pc len l = true ↔ ∃ a ∈ l, (a + len) % 2 ^ 32 = pc := by
  induction l with
  | nil => simp [breakpointHit]
  | cons b rest ih =>
    by_cases hb : (b + len) % 2 ^ 32 = pc
    · rw [breakpointHit, if_pos hb]
      exact iff_of_true rfl ⟨b, List.mem_cons_self b rest, hb⟩
    · rw [breakpointHit, if_neg hb, ih]
      constructor
      · rintro ⟨a, ha, hae⟩
        exact ⟨a, List.mem_cons_of_mem b ha, hae⟩
      · rintro ⟨a, ha, hae⟩
        rcases List.mem_cons.mp ha with rfl | ha2
        · exact absurd hae hb
        · exact ⟨a, ha2, hae⟩

/-- C2: while Running, the breakpoint scan flips the state to Paused and
prints the one-line notice exactly when some record's address `A`
satisfies `A + instructionLength = PC` in 32-bit arithmetic, with
`instructionLength` 4 when the mode flag selects the wide (ARM) encoding
and 2 when it selects the compact (Thumb) encoding; on no match the
controller is returned unchanged, a matching head record halts the scan
regardless of the rest of the list, and in the checking inner loop the
scan runs immediately after every CPU step. -/
theorem c2_breakpoint_match_rule (ext : Externals) (fuel : Nat) (d : ARMDebugger)
    (h : d.state = .running) :
    (((_checkBreakpoints d).1.state = .paused
        ∧ (_checkBreakpoints d).2 = [.out "Hit breakpoint\n"])
      ↔ ∃ a ∈ d.breakpoints,
          (a + (if d.cpu.cpsr.t then WORD_SIZE_THUMB else WORD_SIZE_ARM)) % 2 ^ 32 =
            d.cpu.gprs ARM_PC)
    ∧ ((¬ ∃ a ∈ d.breakpoints,
          (a + (if d.cpu.cpsr.t then WORD_SIZE_THUMB else WORD_SIZE_ARM)) % 2 ^ 32 =
            d.cpu.gprs ARM_PC) → _checkBreakpoints d = (d, []))
    ∧ (∀ a rest, d.breakpoints = a :: rest →
        (a + (if d.cpu.cpsr.t then WORD_SIZE_THUMB else WORD_SIZE_ARM)) % 2 ^ 32 =
          d.cpu.gprs ARM_PC →
        _checkBreakpoints d = ({ d with state := .paused }, [.out "Hit breakpoint\n"]))
    ∧ innerBp ext (fuel + 1) d =
        ((innerBp ext fuel (_checkBreakpoints (stepCPU ext d)).1).1,
          Event.stepped :: ((_checkBreakpoints (stepCPU ext d)).2 ++
            (innerBp ext fuel (_checkBreakpoints (stepCPU ext d)).1).2)) := by
  have hck : _checkBreakpoints d =
      (if breakpointHit (d.cpu.gprs ARM_PC)
            (if d.cpu.cpsr.t then WORD_SIZE_THUMB else WORD_SIZE_ARM) d.breakpoints = true
        then ({ d with state := .paused }, [Event.out "Hit breakpoint\n"])
        else (d, [])) := by
    have hlen : (if modeOf d.cpu.cpsr.t = ExecutionMode.arm then WORD_SIZE_ARM
        else WORD_SIZE_THUMB) =
        (if d.cpu.cpsr.t then WORD_SIZE_THUMB else WORD_SIZE_ARM) := by
      cases ht : d.cpu.cpsr.t <;> simp [modeOf]
    rw [_checkBreakpoints, hlen]
  refine ⟨?_, ?_, ?_, ?_⟩
  · by_cases hb : breakpointHit (d.cpu.gprs ARM_PC)
        (if d.cpu.cpsr.t then WORD_SIZE_THUMB else WORD_SIZE_ARM) d.breakpoints = true
    · rw [hck, if_pos hb]
      exact iff_of_true ⟨rfl, rfl⟩ ((breakpointHit_iff _ _ _).mp hb)
    · rw [hck, if_neg hb]
      refine iff_of_false ?_ (fun he => hb ((breakpointHit_iff _ _ _).mpr he))
      intro hc
      rw [h] at hc
      exact absurd hc.1 (by decide)
  · intro hno
    have hb : ¬ breakpointHit (d.cpu.gprs ARM_PC)
        (if d.cpu.cpsr.t then WORD_SIZE_THUMB else WORD_SIZE_ARM) d.breakpoints = true :=
      fun hbt => hno ((breakpointHit_iff _ _ _).mp hbt)
    rw [hck, if_neg hb]
  · intro a rest hbp ha
    have hb : breakpointHit (d.cpu.gprs ARM_PC)
        (if d.cpu.cpsr.t then WORD_SIZE_THUMB else WORD_SIZE_ARM) d.breakpoints = true :=
      (breakpointHit_iff _ _ _).mpr ⟨a, by rw [hbp]; exact List.mem_cons_self a rest, ha⟩
    rw [hck, if_pos hb]
  · simp [innerBp, h]

/-- Witness for C2: the Thumb-mode sample hits its breakpoint. -/
theorem c2_witness :
    ((_checkBreakpoints thumbRunningDebugger).1.state = .paused
      ∧ (_checkBreakpoints thumbRunningDebugger).2 = [.out "Hit breakpoint\n"]) :=
  ((c2_breakpoint_match_rule sampleExt 0 thumbRunningDebugger rfl).1).mpr
    ⟨113, by decide, by decide⟩

end MgbaDebugger

namespace MgbaDebugger

/-- The sample debugger in the Shutdown state. -/
def shutdownDebugger : ARMDebugger :=
  { sampleDebugger with state := .shutdown }

/-- The sample debugger in the Exiting state. -/
def exitingDebugger : ARMDebugger :=
  { sampleDebugger with state := .exiting }

/-- C6: the run entry point converts Exiting to Running before its loop
body executes and never converts Shutdown — a call in Shutdown fails the
loop guard immediately and returns the controller unchanged with no
events (no CPU step, no REPL entry), a call in Exiting behaves exactly
like a call in Running — and the loop guard
`state < DEBUGGER_EXITING` holds precisely in the Running and Paused
states. -/
theorem c6_run_entry_state_machine (ext : Externals) (fuel : Nat)
    (inputs : List (Option (List Char))) (d : ARMDebugger) :
    (d.state = .shutdown → ARMDebuggerRun ext fuel inputs d = (d, []))
    ∧ (d.state = .exiting →
        ARMDebuggerRun ext fuel inputs d =
          runOuter ext fuel inputs { d with state := .running })
    ∧ (d.state = .exiting →
        ARMDebuggerRun ext fuel inputs d =
          ARMDebuggerRun ext fuel inputs { d with state := .running })
    ∧ (∀ s : DebuggerState,
        s.toNat < DebuggerState.exiting.toNat ↔ s = .running ∨ s = .paused) := by
  refine ⟨?_, ?_, ?_, fun s => by cases s <;> decide⟩
  · intro h
    rw [ARMDebuggerRun, if_neg (by rw [h]; exact fun hc => DebuggerState.noConfusion hc)]
    cases fuel with
    | zero => rfl
    | succ n =>
      rw [runOuter, if_neg (by rw [h]; decide)]
  · intro h
    rw [ARMDebuggerRun, if_pos h]
  · intro h
    rw [ARMDebuggerRun, if_pos h, ARMDebuggerRun,
      if_neg (fun hc => DebuggerState.noConfusion hc)]

/-- Witness for C6: a Shutdown call is inert; an Exiting call equals the
corresponding Running call. -/
theorem c6_witness :
    ARMDebuggerRun sampleExt 5 [] shutdownDebugger = (shutdownDebugger, [])
    ∧ ARMDebuggerRun sampleExt 5 [] exitingDebugger =
        ARMDebuggerRun sampleExt 5 [] { exitingDebugger with state := .running } :=
  ⟨(c6_run_entry_state_machine sampleExt 5 [] shutdownDebugger).1 rfl,
   (c6_run_entry_state_machine sampleExt 5 [] exitingDebugger).2.2.1 rfl⟩

end MgbaDebugger

namespace MgbaDebugger

/-- No command handler touches the line-input history. -/
theorem execCommand_history (ext : Externals) (c : DebuggerCommand) (d : ARMDebugger)
    (dv : List DebugVector) : (execCommand ext c d dv).1.history = d.history := by
  cases c
  case setBreakpointCmd => cases hd : dvHeadInt? dv <;> simp [execCommand, _setBreakpoint, hd]
  case continueCmd => rfl
  case printStatusCmd => rfl
  case nextCmd => rfl
  case printCmd => rfl
  case printHexCmd => rfl
  case quitCmd => rfl
  case readByteCmd => cases hd : dvHeadInt? dv <;> simp [execCommand, _readByte, hd]
  case readHalfwordCmd => cases hd : dvHeadInt? dv <;> simp [execCommand, _readHalfword, hd]
  case readWordCmd => cases hd : dvHeadInt? dv <;> simp [execCommand, _readWord, hd]
  case setWatchpointCmd =>
    cases hd : dvHeadInt? dv with
    | none => simp [execCommand, _setWatchpoint, hd]
    | some a =>
      by_cases hm : d.cpu.memory = MemIface.shim <;>
        simp [execCommand, _setWatchpoint, hd, hm, ARMDebuggerInstallMemoryShim]
  case breakIntoCmd => rfl

/-- Dispatch never touches the history: only the REPL loop appends. -/
theorem parse_preserves_history (ext : Externals) (d : ARMDebugger) (line : List Char) :
    (_parse ext d line).1.1.history = d.history := by
  simp only [_parse]
  split
  · rfl
  · split
    · exact execCommand_history ext _ d _
    · rfl

/-- A paused debugger with one history entry, `i`. -/
def historyDebugger : ARMDebugger :=
  { sampleDebugger with history := [['i']] }

/-- C7: a bare newline with at least one prior history entry re-parses
and re-dispatches the most recent entry verbatim (and, since dispatch
never touches history, appends nothing); a bare newline with no prior
history is a no-op; a non-empty line is appended to history exactly when
its dispatch succeeded, and dispatch succeeds exactly when the argument
list's head is not an error token and the command lookup finds an entry —
so parse errors and unrecognized commands are never appended. -/
theorem c7_repl_history (ext : Externals) (d : ARMDebugger) :
    (∀ h tl, d.history = h :: tl →
        replStep ext d (some []) = (_parse ext d h).1)
    ∧ (d.history = [] → replStep ext d (some []) = (d, []))
    ∧ (∀ l, l ≠ [] →
        (replStep ext d (some l)).1.history =
          (if (_parse ext d l).2 then l :: d.history else d.history)
        ∧ ((_parse ext d l).2 = true ↔
            dvHeadIsError (splitLine d l).2 = false ∧
              (lookupCommand _debuggerCommands (splitLine d l).1).isSome)) := by
  refine ⟨?_, ?_, ?_⟩
  · intro h tl hh
    simp [replStep, hh]
  · intro hh
    simp [replStep, hh]
  · intro l hl
    constructor
    · by_cases hr : (_parse ext d l).2 <;>
        simp [replStep, hl, hr, parse_preserves_history]
    · simp only [_parse]
      by_cases he : dvHeadIsError (splitLine d l).2
      · simp [he]
      · cases hlk : lookupCommand _debuggerCommands (splitLine d l).1 <;> simp [he, hlk]

/-- Witness for C7: bare-newline replay with history, bare-newline no-op
without, and the append-iff-success rule on the line `q`. -/
theorem c7_witness :
    replStep sampleExt historyDebugger (some []) =
      (_parse sampleExt historyDebugger ['i']).1
    ∧ replStep sampleExt sampleDebugger (some []) = (sampleDebugger, [])
    ∧ (replStep sampleExt sampleDebugger (some ['q'])).1.history =
        (if (_parse sampleExt sampleDebugger ['q']).2
          then ['q'] :: sampleDebugger.history else sampleDebugger.history) :=
  ⟨(c7_repl_history sampleExt historyDebugger).1 ['i'] [] rfl,
   (c7_repl_history sampleExt sampleDebugger).2.1 rfl,
   ((c7_repl_history sampleExt sampleDebugger).2.2 ['q'] (by decide)).1⟩

end MgbaDebugger

namespace MgbaDebugger

/-- A recognized decimal digit's value is below 10. -/
theorem digitCharVal_lt {c : Char} {v : Nat} (h : digitCharVal c = some v) : v < 10 := by
  unfold digitCharVal at h
  split at h
  · rename_i hcond
    cases h
    have := hcond
    simp only [Bool.and_eq_true, decide_eq_true_eq] at this
    omega
  · exact Option.noConfusion h

/-- A decimal literal `[1-9][0-9]*` parses to one Integer token holding
its value reduced modulo `2 ^ 32`. -/
theorem dvParse_decimal (d : ARMDebugger) {c : Char} {v : Nat}
    (hv : digitCharVal c = some v) (hv0 : v ≠ 0) (t : List Char)
    (ht : ∀ ch ∈ t, (digitCharVal ch).isSome) :
    _DVParse d (c :: t) = [⟨.INT_TYPE, decValue (c :: t) % 2 ^ 32⟩] := by
  have hne := digitCharVal_ne hv
  have h1 : dvRun d .root 0 (c :: t) = dvRun d .expectDecimal v t := by
    simp [dvRun, hne.1, hne.2, dvStep_root_digit d 0 hv hv0]
  have hdv : decValue (c :: t) =
      t.foldl (fun a ch => a * 10 + (digitCharVal ch).getD 0) v := by
    simp [decValue, hv]
  rw [_DVParse, if_neg (by simp), h1,
    dvRun_decimal d t v ht (lt_trans (digitCharVal_lt hv) (by norm_num)), hdv]

/-- A hex literal `0x…` parses to one Integer token holding its value
reduced modulo `2 ^ 32`. -/
theorem dvParse_hex_0x (d : ARMDebugger) (t : List Char)
    (ht : ∀ ch ∈ t, (hexCharVal ch).isSome) :
    _DVParse d ('0' :: 'x' :: t) = [⟨.INT_TYPE, hexValue t % 2 ^ 32⟩] := by
  have h1 : dvRun d .root 0 ('0' :: 'x' :: t) = dvRun d .expectHex 0 t := rfl
  rw [_DVParse, if_neg (by simp), h1, dvRun_hex d t 0 ht (by norm_num)]
  rfl

/-- A hex literal `0X…` parses to one Integer token holding its value
reduced modulo `2 ^ 32`. -/
theorem dvParse_hex_0X (d : ARMDebugger) (t : List Char)
    (ht : ∀ ch ∈ t, (hexCharVal ch).isSome) :
    _DVParse d ('0' :: 'X' :: t) = [⟨.INT_TYPE, hexValue t % 2 ^ 32⟩] := by
  have h1 : dvRun d .root 0 ('0' :: 'X' :: t) = dvRun d .expectHex 0 t := rfl
  rw [_DVParse, if_neg (by simp), h1, dvRun_hex d t 0 ht (by norm_num)]
  rfl

/-- A hex literal `$…` parses to one Integer token holding its value
reduced modulo `2 ^ 32`. -/
theorem dvParse_hex_dollar (d : ARMDebugger) (t : List Char)
    (ht : ∀ ch ∈ t, (hexCharVal ch).isSome) :
    _DVParse d ('$' :: t) = [⟨.INT_TYPE, hexValue t % 2 ^ 32⟩] := by
  have h1 : dvRun d .root 0 ('$' :: t) = dvRun d .expectHex 0 t := rfl
  rw [_DVParse, if_neg (by simp), h1, dvRun_hex d t 0 ht (by norm_num)]
  rfl

/-- C8: numeric accumulation is unchecked 32-bit arithmetic — every
decimal literal `[1-9][0-9]*` and every hex literal `0x…`, `0X…` or `$…`
accepted by the grammar parses to an Integer token holding the literal's
mathematical value reduced modulo `2 ^ 32`, each step computing
`current * 10 + digit` or `current * 16 + digit` with wraparound. -/
theorem c8_unchecked_wraparound_accumulation (d : ARMDebugger) (c : Char)
    (t : List Char) :
    (∀ v, digitCharVal c = some v → v ≠ 0 → (∀ ch ∈ t, (digitCharVal ch).isSome) →
        _DVParse d (c :: t) = [⟨.INT_TYPE, decValue (c :: t) % 2 ^ 32⟩])
    ∧ ((∀ ch ∈ t, (hexCharVal ch).isSome) →
        _DVParse d ('0' :: 'x' :: t) = [⟨.INT_TYPE, hexValue t % 2 ^ 32⟩]
        ∧ _DVParse d ('0' :: 'X' :: t) = [⟨.INT_TYPE, hexValue t % 2 ^ 32⟩]
        ∧ _DVParse d ('$' :: t) = [⟨.INT_TYPE, hexValue t % 2 ^ 32⟩])
    ∧ (∀ cur w, digitCharVal c = some w →
        dvStep d .expectDecimal cur c = (.expectDecimal, (cur * 10 + w) % 2 ^ 32))
    ∧ (∀ cur w, hexCharVal c = some w →
        dvStep d .expectHex cur c = (.expectHex, (cur * 16 + w) % 2 ^ 32)) := by
  refine ⟨fun v hv hv0 ht => dvParse_decimal d hv hv0 t ht,
    fun ht => ⟨dvParse_hex_0x d t ht, dvParse_hex_0X d t ht, dvParse_hex_dollar d t ht⟩,
    fun cur w hw => by simp [dvStep, hw],
    fun cur w hw => by simp [dvStep, hw]⟩

/-- Witness for C8: `4294967296` wraps to 0, `10` is 10, `$ff` is 255. -/
theorem c8_witness :
    _DVParse sampleDebugger ['1', '0'] = [⟨.INT_TYPE, decValue ['1', '0'] % 2 ^ 32⟩]
    ∧ _DVParse sampleDebugger ['$', 'f', 'f'] =
        [⟨.INT_TYPE, hexValue ['f', 'f'] % 2 ^ 32⟩]
    ∧ _DVParse sampleDebugger ['4', '2', '9', '4', '9', '6', '7', '2', '9', '6'] =
        [⟨.INT_TYPE,
          decValue ['4', '2', '9', '4', '9', '6', '7', '2', '9', '6'] % 2 ^ 32⟩] :=
  ⟨(c8_unchecked_wraparound_accumulation sampleDebugger '1' ['0']).1 1 rfl
      (by decide) (by decide),
   ((c8_unchecked_wraparound_accumulation sampleDebugger '1' ['f', 'f']).2.1
      (by decide)).2.2,
   (c8_unchecked_wraparound_accumulation sampleDebugger '4'
      ['2', '9', '4', '9', '6', '7', '2', '9', '6']).1 4 rfl (by decide) (by decide)⟩

end MgbaDebugger

namespace MgbaDebugger

/-- Counterexample for C4: the decimal literal `4294967296` does not
parse to its numeric value (the accumulator wraps to 0), and the
leading-zero string `0x`, which is not `0x` followed by hex digits, is
not rejected — it parses as Integer 0. -/
theorem c4_counterexample :
    _DVParse sampleDebugger ['4', '2', '9', '4', '9', '6', '7', '2', '9', '6'] =
      [⟨.INT_TYPE, 0⟩]
    ∧ decValue ['4', '2', '9', '4', '9', '6', '7', '2', '9', '6'] = 4294967296
    ∧ (⟨.INT_TYPE, 0⟩ : DebugVector) ≠ ⟨.INT_TYPE, 4294967296⟩
    ∧ _DVParse sampleDebugger ['0', 'x'] = [⟨.INT_TYPE, 0⟩]
    ∧ (⟨.INT_TYPE, 0⟩ : DebugVector).type ≠ DVType.ERROR_TYPE := by
  exact ⟨rfl, rfl, by decide, rfl, by decide⟩

/-- C4 as amended: a decimal literal `[1-9][0-9]*` parses to an Integer
token holding its numeric value reduced modulo `2 ^ 32`; a token that
starts with `0` followed by anything but `x`/`X` is rejected, as is
`0x`/`0X` followed by hex digits and then a non-hex character; but the
truncated strings `0`, `0x` and `0X` themselves are accepted as
Integer 0. -/
theorem c4_amended_decimal_and_leading_zero (d : ARMDebugger) (c c2 : Char)
    (t rest : List Char) :
    (∀ v, digitCharVal c = some v → v ≠ 0 → (∀ ch ∈ t, (digitCharVal ch).isSome) →
        _DVParse d (c :: t) = [⟨.INT_TYPE, decValue (c :: t) % 2 ^ 32⟩])
    ∧ (c ≠ 'x' → c ≠ 'X' → c ≠ ' ' → c ≠ Char.ofNat 0 →
        _DVParse d ('0' :: c :: t) = [⟨.ERROR_TYPE, 0⟩])
    ∧ ((c = 'x' ∨ c = 'X') → (∀ ch ∈ t, (hexCharVal ch).isSome) →
        hexCharVal c2 = none → c2 ≠ ' ' → c2 ≠ Char.ofNat 0 →
        _DVParse d ('0' :: c :: (t ++ c2 :: rest)) = [⟨.ERROR_TYPE, 0⟩])
    ∧ _DVParse d ['0'] = [⟨.INT_TYPE, 0⟩]
    ∧ _DVParse d ['0', 'x'] = [⟨.INT_TYPE, 0⟩]
    ∧ _DVParse d ['0', 'X'] = [⟨.INT_TYPE, 0⟩] := by
  refine ⟨fun v hv hv0 ht => dvParse_decimal d hv hv0 t ht, ?_, ?_, rfl, rfl, rfl⟩
  · intro hx hX hs h0
    have h1 : dvRun d .root 0 ('0' :: c :: t) = dvRun d .expect0x 0 (c :: t) := rfl
    have hstep : dvStep d .expect0x 0 c = (.error, 0) := by
      simp [dvStep, hx, hX]
    have h2 : dvRun d .expect0x 0 (c :: t) = dvRun d .error 0 t := by
      simp [dvRun, hs, h0, hstep]
    rw [_DVParse, if_neg (by simp), h1, h2, dvRun_error]
  · intro hc ht h2 hs2 h02
    have h1 : dvRun d .root 0 ('0' :: c :: (t ++ c2 :: rest)) =
        dvRun d .expectHex 0 (t ++ c2 :: rest) := by
      rcases hc with rfl | rfl <;> rfl
    rw [_DVParse, if_neg (by simp), h1, dvRun_hex_reject d h2 hs2 h02 rest t 0 ht]

/-- Witness for C4 as amended: `10` parses to 10, `09` and `0xfg` are
rejected. -/
theorem c4_amended_witness :
    _DVParse sampleDebugger ['1', '0'] = [⟨.INT_TYPE, decValue ['1', '0'] % 2 ^ 32⟩]
    ∧ _DVParse sampleDebugger ['0', '9'] = [⟨.ERROR_TYPE, 0⟩]
    ∧ _DVParse sampleDebugger ['0', 'x', 'f', 'g'] = [⟨.ERROR_TYPE, 0⟩] :=
  ⟨(c4_amended_decimal_and_leading_zero sampleDebugger '1' 'g' ['0'] []).1 1 rfl
      (by decide) (by decide),
   (c4_amended_decimal_and_leading_zero sampleDebugger '9' 'g' [] []).2.1
      (by decide) (by decide) (by decide) (by decide),
   (c4_amended_decimal_and_leading_zero sampleDebugger 'x' 'g' ['f'] []).2.2.1
      (Or.inl rfl) (by decide) rfl (by decide) (by decide)⟩

/-- Counterexample for C1: in the line `b 1 z` the second argument token
`z` is malformed, yet the parse is not reported as an error — the
dispatcher returns success, prints nothing, and the `b` handler runs,
mutating the breakpoint list; the malformed token merely terminates the
argument list with a trailing error node behind the accepted Integer. -/
theorem c1_counterexample :
    (_parse sampleExt sampleDebugger ['b', ' ', '1', ' ', 'z']).2 = true
    ∧ (_parse sampleExt sampleDebugger ['b', ' ', '1', ' ', 'z']).1.1.breakpoints = [1]
    ∧ (_parse sampleExt sampleDebugger ['b', ' ', '1', ' ', 'z']).1.2 = []
    ∧ _DVParse sampleDebugger ['1', ' ', 'z'] = [⟨.INT_TYPE, 1⟩, ⟨.ERROR_TYPE, 0⟩] := by
  exact ⟨rfl, rfl, rfl, rfl⟩

/-- C1 as amended: parsing is atomic only in the head position — whenever
the argument list produced for the line has an error token at its head
(in particular whenever the FIRST argument token is malformed), the REPL
reports `Parse error`, the command table is never consulted, no handler
runs, and the controller is unchanged; a malformed token at a later
position terminates the argument list with an error node but does not
suppress dispatch. -/
theorem c1_amended_head_error_skips_dispatch (ext : Externals) (d : ARMDebugger)
    (line : List Char) (h : dvHeadIsError (splitLine d line).2 = true) :
    _parse ext d line = ((d, [.out "Parse error\n"]), false) := by
  simp [_parse, h]

/-- Witness for C1 as amended: the line `b z` has a malformed first
argument token and skips dispatch. -/
theorem c1_amended_witness :
    _parse sampleExt sampleDebugger ['b', ' ', 'z'] =
      ((sampleDebugger, [.out "Parse error\n"]), false) :=
  c1_amended_head_error_skips_dispatch sampleExt sampleDebugger ['b', ' ', 'z'] rfl

end MgbaDebugger
